import Mathlib

/-!
# Shallow embedding of the `atomicdict` package

This file embeds the Python package `atomicdict` (files
`atomicdict/__init__.py` and `atomicdict/dict_transaction.py`) in Lean and
proves properties of the embedded code.

Modelling conventions:
* A Python `dict` is modelled as an association list `List (K × V)` whose
  operations (`dictGet`, `dictSet`, `dictDel`, `dictUpdate`) mirror
  `dict.get`, `dict.__setitem__`, `del dict[k]` and `dict.update`.
* `AtomicDict.__immutable_store__`, the `(ver, dict)` tuple, is the
  `Snapshot` structure.  The `id` field of the `AtomicDict` structure models
  Python object identity, used by the `is` comparison in
  `validate_transaction`.
* The `__update_store_lock__` mutual exclusion is implicit: each embedded
  operation is one atomic state transformation, which is exactly what the
  lock guarantees for the critical sections of `atomic_write_read` and
  `commit_transaction`.  For the one claim about concurrent interleavings,
  a small event model (`writerEvents` / `sharedAfter`) makes the single
  shared-memory assignment of `atomic_write_read` explicit.
* Exceptions are `Except` values: `DictTransactionError` mirrors the class
  of the same name, and `PyErr` covers the runtime errors
  (`AttributeError`, `TypeError`) the interpreter itself raises.
-/

set_option autoImplicit false

namespace AtomicDictSpec

variable {K V R : Type} [DecidableEq K]

/-- `store.get(k)` on a Python dict: the value stored under the first (in a
real dict: the only) occurrence of the key, if any. -/
def dictGet (s : List (K × V)) (k : K) : Option V :=
  match s with
  | [] => none
  | (a, v) :: rest => if a = k then some v else dictGet rest k

/-- `store[k] = v` on a Python dict: overwrite the value of an existing key,
preserving insertion order, or append a fresh key at the end. -/
def dictSet (s : List (K × V)) (k : K) (v : V) : List (K × V) :=
  match s with
  | [] => [(k, v)]
  | (a, w) :: rest => if a = k then (k, v) :: rest else (a, w) :: dictSet rest k v

/-- `if k in store: del store[k]` (atomic_write_read lines 70-71): dropping
the entry of `k` when present is the same as filtering `k` out, because a
dict holds at most one entry per key and deleting an absent key is guarded. -/
def dictDel (s : List (K × V)) (k : K) : List (K × V) :=
  s.filter (fun p => p.1 ≠ k)

/-- `store.update(write_dict)`: apply every entry of `write_dict` in order. -/
def dictUpdate (s : List (K × V)) (w : List (K × V)) : List (K × V) :=
  w.foldl (fun acc p => dictSet acc p.1 p.2) s

/-- The `(ver, dict)` tuple stored in `AtomicDict.__immutable_store__`. -/
structure Snapshot (K V : Type) where
  ver : Nat
  store : List (K × V)
  deriving DecidableEq, Repr

/-- State of one `AtomicDict` object.  `id` models Python object identity
(two distinct live objects never share an id); `immutable_store` is the
`__immutable_store__` member initialised to `(0, dict(*args, **kwargs))`. -/
structure AtomicDict (K V : Type) where
  id : Nat
  immutable_store : Snapshot K V
  deriving DecidableEq, Repr

/-- `AtomicDict.__init__`: version 0 together with the initial entries. -/
def AtomicDict.mkNew (oid : Nat) (entries : List (K × V)) : AtomicDict K V :=
  { id := oid, immutable_store := { ver := 0, store := entries } }

/-- Read of the published snapshot performed by `atomic_waitfree_read`
(and every other read-only dict operation): look each key up in the one
captured snapshot, substituting the default when absent. -/
def readSnapshot (s : Snapshot K V) (keys : List K) (default_value : V) :
    List (K × V) :=
  keys.map (fun k => (k, (dictGet s.store k).getD default_value))

/-- `AtomicDict.atomic_waitfree_read` (`__init__.py` lines 78-91): read the
`__immutable_store__` reference once and look all keys up in it. -/
def atomic_waitfree_read (d : AtomicDict K V) (keys : List K)
    (default_value : V) : List (K × V) :=
  readSnapshot d.immutable_store keys default_value

/-- `AtomicDict.atomic_write_read` (`__init__.py` lines 49-76): under the
update lock, capture `(ver, store)`, compute `read_values` from the captured
(pre-mutation) store, build `local_store` by copying the store, applying
`write_dict` and deleting `remove_keys`, then publish `(ver + 1, local_store)`.
Returns the new object state together with `read_values`. -/
def atomic_write_read (d : AtomicDict K V) (write_dict : List (K × V))
    (read_keys : List K) (remove_keys : List K) (default_value : V) :
    AtomicDict K V × List (K × V) :=
  let ver := d.immutable_store.ver
  let store := d.immutable_store.store
  let read_values := readSnapshot d.immutable_store read_keys default_value
  let local_store := remove_keys.foldl (fun s k => dictDel s k)
    (dictUpdate store write_dict)
  ({ d with immutable_store := { ver := ver + 1, store := local_store } },
   read_values)

/-- `AtomicDict.pop` (`__init__.py` lines 213-216): one `atomic_write_read`
reading and removing the key, then the subscript `res[key]` on the returned
dict.  The subscript is modelled by `dictGet` on the result; `none` would be
Python's `KeyError`, which cannot occur because `key` is in `read_keys`. -/
def pop (d : AtomicDict K V) (key : K) (default_value : V) :
    AtomicDict K V × Option V :=
  let r := atomic_write_read d [] [key] [key] default_value
  (r.1, dictGet r.2 key)

/-!
## Basic dict lemmas
-/

theorem dictGet_dictSet (s : List (K × V)) (k : K) (v : V) (q : K) :
    dictGet (dictSet s k v) q = if k = q then some v else dictGet s q := by
  induction s with
  | nil => simp [dictSet, dictGet]
  | cons p rest ih =>
    obtain ⟨a, w⟩ := p
    by_cases hak : a = k
    · subst hak
      by_cases haq : a = q <;> simp [dictSet, dictGet, haq]
    · by_cases haq : a = q
      · subst haq
        have : ¬ k = a := fun h => hak h.symm
        simp [dictSet, dictGet, hak, this]
      · simp [dictSet, dictGet, hak, haq, ih]

theorem dictDel_cons (a : K) (w : V) (rest : List (K × V)) (k : K) :
    dictDel ((a, w) :: rest) k =
      if a = k then dictDel rest k else (a, w) :: dictDel rest k := by
  by_cases h : a = k <;> simp [dictDel, List.filter_cons, h]

theorem dictGet_dictDel (s : List (K × V)) (k : K) (q : K) :
    dictGet (dictDel s k) q = if q = k then none else dictGet s q := by
  induction s with
  | nil => simp [dictDel, dictGet]
  | cons p rest ih =>
    obtain ⟨a, w⟩ := p
    rw [dictDel_cons]
    by_cases hak : a = k
    · rw [if_pos hak, ih]
      by_cases hq : q = k
      · simp [hq]
      · have haq : ¬ a = q := fun h => hq (hak ▸ h.symm ▸ rfl)
        simp only [dictGet, if_neg hq, if_neg haq]
    · rw [if_neg hak]
      by_cases haq : a = q
      · have hq : ¬ q = k := fun h => hak (haq.trans h)
        simp [dictGet, haq, hq]
      · simp [dictGet, haq, ih]

theorem dictGet_eq_none_of_not_mem (w : List (K × V)) (k : K)
    (h : k ∉ w.map Prod.fst) : dictGet w k = none := by
  induction w with
  | nil => rfl
  | cons p rest ih =>
    obtain ⟨a, v⟩ := p
    simp only [List.map_cons, List.mem_cons] at h
    push_neg at h
    have : ¬ a = k := fun hh => h.1 hh.symm
    simp [dictGet, this, ih h.2]

theorem dictGet_dictUpdate (s w : List (K × V)) (k : K)
    (hw : (w.map Prod.fst).Nodup) :
    dictGet (dictUpdate s w) k = (dictGet w k).or (dictGet s k) := by
  induction w generalizing s with
  | nil => simp [dictUpdate, dictGet]
  | cons p rest ih =>
    obtain ⟨a, v⟩ := p
    simp only [List.map_cons, List.nodup_cons] at hw
    have step : dictUpdate s ((a, v) :: rest) = dictUpdate (dictSet s a v) rest := rfl
    rw [step, ih (dictSet s a v) hw.2, dictGet_dictSet]
    by_cases hak : a = k
    · subst hak
      have hnone : dictGet rest a = none := dictGet_eq_none_of_not_mem rest a hw.1
      simp [dictGet, hnone]
    · simp [dictGet, hak]

theorem dictGet_delAll (rks : List K) (s : List (K × V)) (k : K) :
    dictGet (rks.foldl (fun acc q => dictDel acc q) s) k =
      if k ∈ rks then none else dictGet s k := by
  induction rks generalizing s with
  | nil => simp
  | cons a rest ih =>
    by_cases hk : k = a
    · subst hk
      by_cases hmem : k ∈ rest <;>
        simp [List.foldl_cons, ih, hmem, dictGet_dictDel]
    · simp [List.foldl_cons, ih, dictGet_dictDel, hk]

/-!
## Transactions (`dict_transaction.py` and the transaction half of `__init__.py`)
-/

/-- The `DictTransactionError` exception class: it records the source object
(here its identity), the transaction's version and a message. -/
structure DictTransactionError where
  source : Nat
  version : Nat
  msg : String
  deriving DecidableEq, Repr

/-- Runtime errors.  `attributeError` and `typeError` model the interpreter
errors `AttributeError` and `TypeError`; `transactionRaised` wraps a raised
`DictTransactionError`; `outOfFuel` is an artefact of bounding the unbounded
`while` loop of `run_transaction` by fuel. -/
inductive PyErr where
  | attributeError
  | typeError
  | transactionRaised (e : DictTransactionError)
  | outOfFuel
  deriving DecidableEq, Repr

/-- State of a `DictTransaction` object: `source` is the identity of the
`AtomicDict` recorded in `__source__`, `ver` is `__ver__`, `data` is the
`data` attribute of the underlying `UserDict` (`none` models Python `None`,
or the attribute being absent), `committed` is `__committed__`. -/
structure DictTransaction (K V : Type) where
  source : Nat
  ver : Nat
  data : Option (List (K × V))
  committed : Bool
  deriving DecidableEq, Repr

/-- CPython: assigning an attribute on a builtin `dict` instance raises
`AttributeError`, because plain dicts carry no attribute dictionary. -/
def builtinDictSetAttr (s : List (K × V)) (attr : String) : Except PyErr Unit :=
  .error .attributeError

/-- `DictTransaction.__init__` (`dict_transaction.py` lines 31-42).  The
source reads `UserDict.__init__(source_store)`: the store itself is passed
as `self`, so `UserDict.__init__` executes `self.data = {}` on the builtin
dict `source_store`, which raises `AttributeError`.  The constructor
therefore never returns; even if the attribute assignment succeeded, the
transaction object's own `data` attribute would never be assigned, which is
why the (unreachable) success branch carries `data := none`. -/
def DictTransaction.init (source_id : Nat) (source_ver : Nat)
    (source_store : List (K × V)) : Except PyErr (DictTransaction K V) :=
  match builtinDictSetAttr source_store "data" with
  | .error e => .error e
  | .ok _ =>
    .ok { source := source_id, ver := source_ver, data := none,
          committed := false }

/-- `AtomicDict.begin_transaction` (`__init__.py` lines 97-105): read the
current snapshot and construct a `DictTransaction` from it. -/
def begin_transaction (d : AtomicDict K V) :
    Except PyErr (DictTransaction K V) :=
  DictTransaction.init d.id d.immutable_store.ver d.immutable_store.store

/-- `DictTransaction.validate_transaction` (`dict_transaction.py` lines
56-71): raise if the presented dict is not the recorded source (identity
comparison `is not`), then raise if the presented dict's current version
differs from the captured one. -/
def validate_transaction (tx : DictTransaction K V) (atomic_dict : AtomicDict K V) :
    Except DictTransactionError Bool :=
  if atomic_dict.id ≠ tx.source then
    .error { source := tx.source, version := tx.ver,
             msg := "Transaction object does not match input object" }
  else if atomic_dict.immutable_store.ver ≠ tx.ver then
    .error { source := tx.source, version := tx.ver,
             msg := "Expected version differs from actual version" }
  else
    .ok true

/-- `AtomicDict.commit_transaction` (`__init__.py` lines 107-123): under the
update lock, read `(ver, store)`, read `transaction.data`, validate; on
validation failure the exception propagates and nothing is published; on
success publish `(ver + 1, transaction.data)`, set `transaction.data = None`
and return `True`.  The result triple is (container state, transaction
state, outcome).  The `getD []` covers the corner where `transaction.data`
is `None` yet validation succeeds: through the published API that state is
unreachable (a committed transaction can never validate again, since the
version advanced at its commit), and Python would there install `None` as
the store, corrupting the container. -/
def commit_transaction (d : AtomicDict K V) (transaction : DictTransaction K V) :
    AtomicDict K V × DictTransaction K V × Except DictTransactionError Bool :=
  let ver := d.immutable_store.ver
  let new_store := transaction.data
  match validate_transaction transaction d with
  | .error e => (d, transaction, .error e)
  | .ok _ =>
    ({ d with immutable_store := { ver := ver + 1, store := new_store.getD [] } },
     { transaction with data := none }, .ok true)

/-- `DictTransaction.commit` (`dict_transaction.py` lines 73-75): do nothing
when already committed, otherwise call `commit_transaction` on the source
and record its `True` result in `__committed__`.  The state of the source
container object (`tx.source`) is passed explicitly as `d`. -/
def DictTransaction.commit (d : AtomicDict K V) (tx : DictTransaction K V) :
    AtomicDict K V × DictTransaction K V × Except DictTransactionError Bool :=
  if tx.committed then (d, tx, .ok true)
  else
    match commit_transaction d tx with
    | (d2, tx2, .ok b) => (d2, { tx2 with committed := b }, .ok true)
    | (d2, tx2, .error e) => (d2, tx2, .error e)

/-- `UserDict.__setitem__`: `self.data[key] = item`.  When `data` is `None`
(as it is after a successful commit) Python raises `TypeError`. -/
def DictTransaction.setitem (tx : DictTransaction K V) (key : K) (item : V) :
    Except PyErr (DictTransaction K V) :=
  match tx.data with
  | none => .error .typeError
  | some s => .ok { tx with data := some (dictSet s key item) }

/-- `AtomicDict.run_transaction` (`__init__.py` lines 125-144): loop
begin-transaction / run the body / commit, retrying whenever a
`DictTransactionError` was raised.  Any other exception (in particular the
`AttributeError` from `begin_transaction`) is not caught and propagates.
The unbounded `while not success` loop is bounded by `fuel`; the body is a
pure function from the transaction to (mutated transaction, return value). -/
def run_transaction (fuel : Nat) (d : AtomicDict K V)
    (transaction_func : DictTransaction K V → DictTransaction K V × R) :
    Except PyErr (AtomicDict K V × R) :=
  match fuel with
  | 0 => .error .outOfFuel
  | n + 1 =>
    match begin_transaction d with
    | .error e => .error e
    | .ok transaction =>
      let r := transaction_func transaction
      match DictTransaction.commit d r.1 with
      | (d2, _, .ok _) => .ok (d2, r.2)
      | (_, _, .error _) => run_transaction n d transaction_func

/-!
## Publication sequences (for version monotonicity)

A publication is either an `atomic_write_read` call or a transaction commit
attempt; `clear` (line 199-202) also publishes but is a special case of the
same pattern.  `publishedVers` collects the versions of the snapshots
actually published while running a sequence of operations.
-/

/-- One operation that may publish a new snapshot. -/
inductive PubOp (K V : Type) where
  | write (write_dict : List (K × V)) (read_keys : List K)
      (remove_keys : List K) (default_value : V)
  | commitOp (tx : DictTransaction K V)

/-- Run one operation; the `Option Nat` is the version of the snapshot it
published, `none` when a failed commit published nothing. -/
def applyOp (d : AtomicDict K V) : PubOp K V → AtomicDict K V × Option Nat
  | .write wd rk rmk dv =>
    let r := atomic_write_read d wd rk rmk dv
    (r.1, some r.1.immutable_store.ver)
  | .commitOp tx =>
    match commit_transaction d tx with
    | (d2, _, .ok _) => (d2, some d2.immutable_store.ver)
    | (d2, _, .error _) => (d2, none)

/-- The versions of all snapshots published while running `ops` in order. -/
def publishedVers (d : AtomicDict K V) : List (PubOp K V) → List Nat
  | [] => []
  | op :: rest =>
    match applyOp d op with
    | (d2, some v) => v :: publishedVers d2 rest
    | (d2, none) => publishedVers d2 rest

/-!
## Interleaving model of one writer against one wait-free reader

`atomic_write_read` performs exactly one write to shared memory: the
assignment `self.__immutable_store__ = (ver + 1, local_store)` at its
linearization point (line 74).  Every other step of its body manipulates
thread-local state only.  `writerEvents` lists the steps of one call as
seen by other threads; `sharedAfter` gives the shared snapshot after a
prefix of those steps.  A concurrent `atomic_waitfree_read` loads the
shared snapshot reference exactly once, at an arbitrary cut point `j`.
-/

/-- One step of the writer: either a thread-local step (invisible to other
threads) or the single publication of a new snapshot. -/
inductive WriterEvent (K V : Type) where
  | localStep
  | publish (s : Snapshot K V)

/-- The steps of one `atomic_write_read(write_dict, _, remove_keys, _)` call
starting from shared snapshot `s0`: read the snapshot and compute
`read_values`; copy the store and apply `write_dict`; delete `remove_keys`;
publish the new snapshot. -/
def writerEvents (s0 : Snapshot K V) (write_dict : List (K × V))
    (remove_keys : List K) : List (WriterEvent K V) :=
  [WriterEvent.localStep,
   WriterEvent.localStep,
   WriterEvent.localStep,
   WriterEvent.publish
     { ver := s0.ver + 1,
       store := remove_keys.foldl (fun s k => dictDel s k)
         (dictUpdate s0.store write_dict) }]

/-- The shared snapshot after the writer has executed a given list of steps,
starting from `s0`: local steps leave it unchanged, a publication replaces
it. -/
def sharedAfter (s0 : Snapshot K V) (evs : List (WriterEvent K V)) :
    Snapshot K V :=
  evs.foldl
    (fun s e => match e with | WriterEvent.localStep => s | WriterEvent.publish s2 => s2)
    s0

/-!
## Unfolding equations for `atomic_write_read`
-/

theorem atomic_write_read_fst (d : AtomicDict K V) (wd : List (K × V))
    (rk rmk : List K) (dv : V) :
    (atomic_write_read d wd rk rmk dv).1 =
      { d with immutable_store :=
        { ver := d.immutable_store.ver + 1,
          store := rmk.foldl (fun s q => dictDel s q)
            (dictUpdate d.immutable_store.store wd) } } := rfl

theorem atomic_write_read_snd (d : AtomicDict K V) (wd : List (K × V))
    (rk rmk : List K) (dv : V) :
    (atomic_write_read d wd rk rmk dv).2 =
      readSnapshot d.immutable_store rk dv := rfl

/-!
## Claim theorems
-/

/-- C1: the `read_values` returned by `atomic_write_read` are looked up in
the snapshot as it was immediately before this call's own mutation — they
coincide with a wait-free read of the pre-call state and never reflect the
writes or removals applied by the same call.  In particular, from state
`{a:1, b:2}` (keys `1` and `2`), `atomic_write_read(write_dict={a:3},
read_keys=[a,b])` returns `{a:1, b:2}`, and a subsequent
`atomic_waitfree_read([a,b])` returns `{a:3, b:2}`. -/
theorem C1_atomic_write_read_before_semantics :
    (∀ (A B : Type) (inst : DecidableEq A) (d : AtomicDict A B)
       (write_dict : List (A × B)) (read_keys remove_keys : List A)
       (default_value : B),
       (atomic_write_read d write_dict read_keys remove_keys default_value).2 =
         atomic_waitfree_read d read_keys default_value) ∧
    ((atomic_write_read (AtomicDict.mkNew 0 [(1, 1), (2, 2)] :
        AtomicDict Nat Nat) [(1, 3)] [1, 2] [] 0).2 = [(1, 1), (2, 2)] ∧
     atomic_waitfree_read
       (atomic_write_read (AtomicDict.mkNew 0 [(1, 1), (2, 2)] :
          AtomicDict Nat Nat) [(1, 3)] [1, 2] [] 0).1 [1, 2] 0 =
       [(1, 3), (2, 2)]) :=
  ⟨fun _ _ _ _ _ _ _ _ => rfl, by decide, by decide⟩

/-- C6: the mapping published by `atomic_write_read` equals the pre-mutation
mapping with all `write_dict` entries inserted or overwritten and then all
`remove_keys` removed (removing an absent key is a no-op); consequently a
key listed both in `write_dict` and in `remove_keys` is absent from the
published mapping. -/
theorem C6_atomic_write_read_published_mapping (d : AtomicDict K V)
    (write_dict : List (K × V)) (read_keys remove_keys : List K)
    (default_value : V) (hw : (write_dict.map Prod.fst).Nodup) (k : K) :
    dictGet (atomic_write_read d write_dict read_keys remove_keys
        default_value).1.immutable_store.store k =
      (if k ∈ remove_keys then none
       else (dictGet write_dict k).or (dictGet d.immutable_store.store k)) := by
  rw [atomic_write_read_fst]
  show dictGet (remove_keys.foldl (fun s q => dictDel s q)
    (dictUpdate d.immutable_store.store write_dict)) k = _
  rw [dictGet_delAll, dictGet_dictUpdate _ _ _ hw]

theorem C6_witness :
    ((([(1, 5), (2, 6)] : List (Nat × Nat)).map Prod.fst).Nodup) ∧
    dictGet (atomic_write_read (AtomicDict.mkNew 0 [(1, 1)] :
        AtomicDict Nat Nat) [(1, 5), (2, 6)] [] [2] 0).1.immutable_store.store 2 =
      (if 2 ∈ [2] then none
       else (dictGet [(1, 5), (2, 6)] 2).or
         (dictGet ([(1, 1)] : List (Nat × Nat)) 2)) :=
  ⟨by decide,
   C6_atomic_write_read_published_mapping (AtomicDict.mkNew 0 [(1, 1)])
     [(1, 5), (2, 6)] [] [2] 0 (by decide) 2⟩

/-- C9: `pop(key, default)` returns the value `key` had in the snapshot
immediately before the removal (the default when `key` was absent), removes
`key` from the published mapping, increments the published version by
exactly 1, and leaves the value of every other key unchanged. -/
theorem C9_pop_spec (d : AtomicDict K V) (key : K) (default_value : V) :
    (pop d key default_value).2 =
      some ((dictGet d.immutable_store.store key).getD default_value) ∧
    (pop d key default_value).1.immutable_store.ver =
      d.immutable_store.ver + 1 ∧
    dictGet (pop d key default_value).1.immutable_store.store key = none ∧
    ∀ k, k ≠ key →
      dictGet (pop d key default_value).1.immutable_store.store k =
        dictGet d.immutable_store.store k := by
  refine ⟨?_, rfl, ?_, ?_⟩
  · show dictGet (readSnapshot d.immutable_store [key] default_value) key = _
    simp [readSnapshot, dictGet]
  · show dictGet ([key].foldl (fun s q => dictDel s q)
      (dictUpdate d.immutable_store.store [])) key = none
    rw [dictGet_delAll]
    simp
  · intro k hk
    show dictGet ([key].foldl (fun s q => dictDel s q)
      (dictUpdate d.immutable_store.store [])) k = _
    rw [dictGet_delAll]
    simp [dictUpdate, hk]

theorem C9_pop_spec_witness :
    (3 : Nat) ≠ 1 ∧
    dictGet (pop (AtomicDict.mkNew 0 [(1, 10), (3, 30)] :
        AtomicDict Nat Nat) 1 0).1.immutable_store.store 3 =
      dictGet ([(1, 10), (3, 30)] : List (Nat × Nat)) 3 :=
  ⟨by decide,
   (C9_pop_spec (AtomicDict.mkNew 0 [(1, 10), (3, 30)]) 1 0).2.2.2 3 (by decide)⟩

/-- C2: whenever the container's current version differs from the
transaction's captured base version, or the transaction's recorded source
is not this container, `commit_transaction` raises a `DictTransactionError`
carrying the source, the base version and a reason, and publishes nothing:
container and transaction come out exactly as they went in. -/
theorem C2_commit_transaction_rejects (d : AtomicDict K V)
    (tx : DictTransaction K V)
    (h : d.id ≠ tx.source ∨ d.immutable_store.ver ≠ tx.ver) :
    ∃ e : DictTransactionError,
      commit_transaction d tx = (d, tx, .error e) ∧
      e.source = tx.source ∧ e.version = tx.ver ∧ e.msg ≠ "" := by
  by_cases hid : d.id = tx.source
  · have hver : d.immutable_store.ver ≠ tx.ver :=
      h.resolve_left (not_not_intro hid)
    exact ⟨{ source := tx.source, version := tx.ver,
             msg := "Expected version differs from actual version" },
           by simp [commit_transaction, validate_transaction, hid, hver],
           rfl, rfl,
           by show ("Expected version differs from actual version" : String) ≠ ""
              decide⟩
  · exact ⟨{ source := tx.source, version := tx.ver,
             msg := "Transaction object does not match input object" },
           by simp [commit_transaction, validate_transaction, hid],
           rfl, rfl,
           by show ("Transaction object does not match input object" : String) ≠ ""
              decide⟩

theorem C2_witness :
    ((⟨0, ⟨5, []⟩⟩ : AtomicDict Nat Nat).id ≠
       (⟨1, 5, some [], false⟩ : DictTransaction Nat Nat).source ∨
     (⟨0, ⟨5, []⟩⟩ : AtomicDict Nat Nat).immutable_store.ver ≠
       (⟨1, 5, some [], false⟩ : DictTransaction Nat Nat).ver) ∧
    (∃ e : DictTransactionError,
      commit_transaction (⟨0, ⟨5, []⟩⟩ : AtomicDict Nat Nat)
          (⟨1, 5, some [], false⟩ : DictTransaction Nat Nat) =
        (⟨0, ⟨5, []⟩⟩, ⟨1, 5, some [], false⟩, .error e) ∧
      e.source = 1 ∧ e.version = 5 ∧ e.msg ≠ "") :=
  ⟨Or.inl (by decide),
   C2_commit_transaction_rejects (⟨0, ⟨5, []⟩⟩ : AtomicDict Nat Nat)
     (⟨1, 5, some [], false⟩ : DictTransaction Nat Nat) (Or.inl (by decide))⟩

/-- C5: when validation succeeds (the transaction's recorded source is this
container and the captured version is still current), `commit_transaction`
publishes a new snapshot whose version is the previous version plus 1 and
whose mapping is the transaction's working data, and returns `True`;
`DictTransaction.commit` then records the `True` in the committed flag. -/
theorem C5_commit_transaction_publishes (d : AtomicDict K V)
    (tx : DictTransaction K V) (s : List (K × V))
    (hid : d.id = tx.source) (hver : d.immutable_store.ver = tx.ver)
    (hdata : tx.data = some s) :
    commit_transaction d tx =
      ({ d with immutable_store :=
          { ver := d.immutable_store.ver + 1, store := s } },
       { tx with data := none }, .ok true) ∧
    (tx.committed = false →
      (DictTransaction.commit d tx).2.1.committed = true ∧
      (DictTransaction.commit d tx).1.immutable_store =
        { ver := d.immutable_store.ver + 1, store := s }) := by
  have hc : commit_transaction d tx =
      ({ d with immutable_store :=
          { ver := d.immutable_store.ver + 1, store := s } },
       { tx with data := none }, .ok true) := by
    simp [commit_transaction, validate_transaction, hid, hver, hdata]
  refine ⟨hc, fun hcom => ?_⟩
  simp [DictTransaction.commit, hcom, hc]

theorem C5_witness :
    ((⟨0, ⟨5, [(1, 1)]⟩⟩ : AtomicDict Nat Nat).id =
       (⟨0, 5, some [(1, 2)], false⟩ : DictTransaction Nat Nat).source) ∧
    (DictTransaction.commit (⟨0, ⟨5, [(1, 1)]⟩⟩ : AtomicDict Nat Nat)
       (⟨0, 5, some [(1, 2)], false⟩ : DictTransaction Nat Nat)).2.1.committed
      = true :=
  ⟨rfl,
   ((C5_commit_transaction_publishes (⟨0, ⟨5, [(1, 1)]⟩⟩ : AtomicDict Nat Nat)
      (⟨0, 5, some [(1, 2)], false⟩ : DictTransaction Nat Nat) [(1, 2)]
      rfl rfl rfl).2 rfl).1⟩

/-- C10: after every successful `commit_transaction`, the transaction's
`data` attribute is `None`; a subsequent item assignment through the
transaction therefore raises `TypeError` rather than mutating the mapping
that was just published. -/
theorem C10_commit_clears_data (d : AtomicDict K V) (tx : DictTransaction K V)
    (h : (commit_transaction d tx).2.2 = .ok true) :
    (commit_transaction d tx).2.1.data = none ∧
    ∀ (key : K) (item : V),
      DictTransaction.setitem (commit_transaction d tx).2.1 key item =
        .error .typeError := by
  have htx : (commit_transaction d tx).2.1 = { tx with data := none } := by
    simp only [commit_transaction] at h ⊢
    cases hval : validate_transaction tx d with
    | error e => rw [hval] at h; simp at h
    | ok b => rfl
  rw [htx]
  exact ⟨rfl, fun key item => rfl⟩

theorem C10_witness :
    (commit_transaction (⟨0, ⟨5, [(1, 1)]⟩⟩ : AtomicDict Nat Nat)
       (⟨0, 5, some [(1, 2)], false⟩ : DictTransaction Nat Nat)).2.2 =
      .ok true ∧
    (commit_transaction (⟨0, ⟨5, [(1, 1)]⟩⟩ : AtomicDict Nat Nat)
       (⟨0, 5, some [(1, 2)], false⟩ : DictTransaction Nat Nat)).2.1.data =
      none :=
  ⟨rfl,
   (C10_commit_clears_data (⟨0, ⟨5, [(1, 1)]⟩⟩ : AtomicDict Nat Nat)
     (⟨0, 5, some [(1, 2)], false⟩ : DictTransaction Nat Nat) rfl).1⟩

theorem chain_consecutive_range (n : Nat) :
    ∀ s, (List.range' s n).Chain' (fun a b => b = a + 1) := by
  induction n with
  | zero => intro s; simp
  | succ m ih =>
    intro s
    rw [List.range'_succ]
    cases m with
    | zero => simp
    | succ m2 =>
      rw [List.range'_succ, List.chain'_cons]
      refine ⟨rfl, ?_⟩
      rw [← List.range'_succ]
      exact ih (s + 1)

theorem publishedVers_eq_range (d : AtomicDict K V) (ops : List (PubOp K V)) :
    ∃ n, publishedVers d ops = List.range' (d.immutable_store.ver + 1) n := by
  induction ops generalizing d with
  | nil => exact ⟨0, rfl⟩
  | cons op rest ih =>
    cases op with
    | write wd rk rmk dv =>
      obtain ⟨n, hn⟩ := ih (atomic_write_read d wd rk rmk dv).1
      refine ⟨n + 1, ?_⟩
      show (d.immutable_store.ver + 1) ::
        publishedVers (atomic_write_read d wd rk rmk dv).1 rest = _
      rw [hn, List.range'_succ]
      rfl
    | commitOp tx =>
      cases hval : validate_transaction tx d with
      | error e =>
        have hpub : publishedVers d (PubOp.commitOp tx :: rest) =
            publishedVers d rest := by
          simp [publishedVers, applyOp, commit_transaction, hval]
        obtain ⟨n, hn⟩ := ih d
        exact ⟨n, by rw [hpub, hn]⟩
      | ok b =>
        have hpub : publishedVers d (PubOp.commitOp tx :: rest) =
            (d.immutable_store.ver + 1) ::
            publishedVers { d with immutable_store :=
              { ver := d.immutable_store.ver + 1,
                store := tx.data.getD [] } } rest := by
          simp [publishedVers, applyOp, commit_transaction, hval]
        obtain ⟨n, hn⟩ := ih { d with immutable_store :=
          { ver := d.immutable_store.ver + 1, store := tx.data.getD [] } }
        refine ⟨n + 1, ?_⟩
        rw [hpub, hn, List.range'_succ]

/-- C3: starting from a container at version 0, every publication (each
`atomic_write_read` call and each successful commit) increases the
published version by exactly 1: over any sequence of operations the list of
published versions is exactly `[1, 2, ..., n]`, hence each publication is
the predecessor plus one, versions are strictly increasing, and no two
published snapshots share a version. -/
theorem C3_version_monotonic (oid : Nat) (store0 : List (K × V))
    (ops : List (PubOp K V)) :
    publishedVers (AtomicDict.mkNew oid store0) ops =
      List.range' 1
        (publishedVers (AtomicDict.mkNew oid store0) ops).length ∧
    (publishedVers (AtomicDict.mkNew oid store0) ops).Chain'
      (fun a b => b = a + 1) ∧
    (publishedVers (AtomicDict.mkNew oid store0) ops).Chain' (· < ·) ∧
    (publishedVers (AtomicDict.mkNew oid store0) ops).Nodup := by
  obtain ⟨n, h⟩ := publishedVers_eq_range (AtomicDict.mkNew oid store0) ops
  have hlen : (publishedVers (AtomicDict.mkNew oid store0) ops).length = n := by
    rw [h]; simp
  have hchain : (publishedVers (AtomicDict.mkNew oid store0) ops).Chain'
      (fun a b => b = a + 1) := by
    rw [h]; exact chain_consecutive_range _ _
  refine ⟨?_, hchain, ?_, ?_⟩
  · rw [hlen, h]
    rfl
  · exact hchain.imp (fun hab => by omega)
  · rw [h]; exact List.nodup_range' _ _

/-- C8: no tearing — a concurrent `atomic_waitfree_read` loads the shared
snapshot reference at one arbitrary cut point `j` among the steps of a
racing `atomic_write_read` (whose only shared-memory write is its single
publication); whatever the cut, every value it returns comes from that one
loaded snapshot: the result is either entirely the pre-write read or
entirely the post-write read, never a mix of versions. -/
theorem C8_atomic_waitfree_read_no_tearing (oid : Nat) (s0 : Snapshot K V)
    (write_dict : List (K × V)) (read_keys remove_keys : List K)
    (default_value : V) (keys : List K) (dv : V) (j : Nat) :
    readSnapshot
        (sharedAfter s0 ((writerEvents s0 write_dict remove_keys).take j))
        keys dv =
      atomic_waitfree_read (⟨oid, s0⟩ : AtomicDict K V) keys dv ∨
    readSnapshot
        (sharedAfter s0 ((writerEvents s0 write_dict remove_keys).take j))
        keys dv =
      atomic_waitfree_read
        (atomic_write_read (⟨oid, s0⟩ : AtomicDict K V) write_dict
          read_keys remove_keys default_value).1 keys dv := by
  match j with
  | 0 => exact Or.inl rfl
  | 1 => exact Or.inl rfl
  | 2 => exact Or.inl rfl
  | 3 => exact Or.inl rfl
  | n + 4 =>
    right
    have ht : (writerEvents s0 write_dict remove_keys).take (n + 4) =
        writerEvents s0 write_dict remove_keys :=
      List.take_of_length_le (by simp [writerEvents])
    rw [ht]
    rfl

/-- C4 (code defect): `begin_transaction` never returns a transaction.  The
constructor runs `UserDict.__init__(source_store)`, passing the source
store in the `self` position, so it assigns the `data` attribute on a
builtin dict and raises `AttributeError` for every container state —
instead of, as documented, producing a transaction seeded with the current
version and a copy of the current data. -/
theorem C4_begin_transaction_raises (d : AtomicDict K V) :
    begin_transaction d = .error .attributeError := rfl

/-- C7 (code defect): `run_transaction` can never return the body's value.
On every iteration its first step `begin_transaction` raises
`AttributeError` (see `DictTransaction.init`), which the handler for
`DictTransactionError` does not catch, so for every container state and
every body the call terminates with `AttributeError` on the first
iteration. -/
theorem C7_run_transaction_raises (fuel : Nat) (d : AtomicDict K V)
    (transaction_func : DictTransaction K V → DictTransaction K V × R) :
    run_transaction (fuel + 1) d transaction_func =
      .error .attributeError := rfl
